import Mathlib

/-!
Verification of the fixed-window rate-limiting middleware
(`src/worker/middleware/rateLimit.ts` of the web-app starter pack).

The middleware keeps a module-level `Map` from key strings to
`{count, resetTime}` objects.  Each invocation sweeps expired entries,
gets-or-creates the entry for the caller's key, increments its count,
sets the three informational headers, and either rejects with 429 or
forwards to `next`.  We embed the store as an association list, time as
`Int` milliseconds (`Date.now()`), and one middleware invocation as the
pure function `rateLimitCheck` from (config, key, now, store) to
(outcome, store).
-/

namespace RateLimiter

/-- One value of the `requestCounts` map: `{ count: number; resetTime: number }`. -/
structure Entry where
  count : Int
  resetTime : Int
deriving DecidableEq

/-- The module-level `requestCounts : Map<string, Entry>`, embedded as an
association list (first occurrence of a key is the binding; stores built
by the middleware have pairwise-distinct keys, see `keysNodup`).
There is a single such map in the module, shared by every middleware
returned by `rateLimit`; we model that by threading one `Store` value
through successive calls regardless of which config each call uses. -/
abbrev Store := List (String × Entry)

/-- Lookup of `requestCounts.get(key)`. -/
def lookup (st : Store) (k : String) : Option Entry :=
  match st with
  | [] => none
  | (k1, e) :: rest => if k1 = k then some e else lookup rest k

/-- Update of `requestCounts.set(key, e)`: replaces the binding in place if
the key is present (JS `Map.set` keeps insertion order), otherwise appends. -/
def setEntry (st : Store) (k : String) (e : Entry) : Store :=
  match st with
  | [] => [(k, e)]
  | (k1, e1) :: rest => if k1 = k then (k, e) :: rest else (k1, e1) :: setEntry rest k e

/-- The inline cleanup loop:
`for (const [k, v] of requestCounts.entries()) if (v.resetTime < now) requestCounts.delete(k)`. -/
def sweep (st : Store) (now : Int) : Store :=
  match st with
  | [] => []
  | kv :: rest => if kv.2.resetTime < now then sweep rest now else kv :: sweep rest now

/-- The keys of a store are pairwise distinct (true of every real `Map`). -/
abbrev keysNodup (st : Store) : Prop := (st.map Prod.fst).Nodup

/-- The `RateLimitOptions` object: absent (`undefined`) fields are `none`
and receive defaults by destructuring in `rateLimit`. -/
structure RateLimitOptions where
  windowMs : Option Int
  max : Option Int
  message : Option String

/-- A config after destructuring defaults: the captured `windowMs`, `max`,
`message` of one middleware closure. -/
structure ResolvedConfig where
  windowMs : Int
  max : Int
  message : String
deriving DecidableEq

/-- Default rejection message of the middleware. -/
def defaultMessage : String := "Too many requests, please try again later."

/-- The construction step of `rateLimit(options)`: destructuring with
defaults (`windowMs = 60 * 1000`, `max = 100`, `message = ...`).  It is a
total function: the source performs no validation of the option values. -/
def rateLimit (opts : RateLimitOptions) : ResolvedConfig :=
  ResolvedConfig.mk (opts.windowMs.getD 60000) (opts.max.getD 100)
    (opts.message.getD defaultMessage)

/-- The default key generator `(c) => c.req.header('CF-Connecting-IP') || 'unknown'`
(`||` also replaces an empty header value, which is falsy in JS). -/
def defaultKeyGenerator (ip : Option String) : String :=
  match ip with
  | some s => if s = "" then "unknown" else s
  | none => "unknown"

/-- Get-or-create for the key's entry:
`if (!requestCount || requestCount.resetTime < now) requestCount = {count: 0, resetTime: now + windowMs}`.
Applied to the already-swept store, as in the source. -/
def getOrCreate (st1 : Store) (key : String) (now w : Int) : Entry :=
  match lookup st1 key with
  | some e => if e.resetTime < now then Entry.mk 0 (now + w) else e
  | none => Entry.mk 0 (now + w)

/-- The entry after `requestCount.count++`. -/
def bumped (st1 : Store) (key : String) (now w : Int) : Entry :=
  Entry.mk ((getOrCreate st1 key now w).count + 1) (getOrCreate st1 key now w).resetTime

/-- Math.ceil(d / 1000) for an integer d, as in the `Retry-After` computation
`Math.ceil((requestCount.resetTime - now) / 1000)`. -/
def ceilSeconds (d : Int) : Int := -((-d) / 1000)

/-- The 429 branch payload: the `Retry-After` header value, the HTTP status,
and the JSON body `{error: message}`. -/
structure Rejection where
  retryAfter : Int
  status : Nat
  errorBody : String
deriving DecidableEq

/-- Everything one invocation makes protocol-visible: the three headers
`X-RateLimit-Limit`, `X-RateLimit-Remaining`, `X-RateLimit-Reset` (the reset
header is the `resetTime` timestamp, serialized by `toISOString` in the
source), and — when the limit is exceeded — the rejection.  `rejected = none`
means the middleware fell through to `await next()`. -/
structure Outcome where
  limitHdr : Int
  remainingHdr : Int
  resetHdr : Int
  rejected : Option Rejection
deriving DecidableEq

/-- Whether the request was forwarded to the next stage of the pipeline:
`await next()` runs exactly when the 429 branch was not taken. -/
def nextInvoked (o : Outcome) : Bool := o.rejected.isNone

/-- The decision part of one invocation, given the post-increment entry:
headers are set unconditionally, then `if (requestCount.count > max)` rejects
with `Retry-After` and `{error: message}` at status 429. -/
def decisionOf (cfg : ResolvedConfig) (e2 : Entry) (now : Int) : Outcome :=
  Outcome.mk cfg.max (max 0 (cfg.max - e2.count)) e2.resetTime
    (if cfg.max < e2.count then
       some (Rejection.mk (ceilSeconds (e2.resetTime - now)) 429 cfg.message)
     else none)

/-- One invocation of the middleware returned by `rateLimit`, for the key the
key generator produced, at time `now = Date.now()`, on the current shared
store: sweep, get-or-create, increment, headers, limit check. -/
def rateLimitCheck (cfg : ResolvedConfig) (key : String) (now : Int) (st : Store) :
    Outcome × Store :=
  (decisionOf cfg (bumped (sweep st now) key now cfg.windowMs) now,
   setEntry (sweep st now) key (bumped (sweep st now) key now cfg.windowMs))

/-- The preset `strictRateLimit` (15 min window, 5 requests). -/
def strictRateLimit : ResolvedConfig :=
  rateLimit (RateLimitOptions.mk (some (15 * 60 * 1000)) (some 5)
    (some "Too many requests for this resource"))

/-- The preset `apiRateLimit` (1 min window, 60 requests, default message). -/
def apiRateLimit : ResolvedConfig :=
  rateLimit (RateLimitOptions.mk (some (60 * 1000)) (some 60) none)

/-- The preset `authRateLimit` (15 min window, 10 attempts). -/
def authRateLimit : ResolvedConfig :=
  rateLimit (RateLimitOptions.mk (some (15 * 60 * 1000)) (some 10)
    (some "Too many authentication attempts"))

/-- Iterated invocations for one key at the given sequence of times, as the
host performs them back to back on the shared store. -/
def runTimes (cfg : ResolvedConfig) (key : String) (ts : List Int) (st : Store) :
    List Outcome × Store :=
  match ts with
  | [] => ([], st)
  | t :: rest =>
    let r := rateLimitCheck cfg key t st
    let rr := runTimes cfg key rest r.2
    (r.1 :: rr.1, rr.2)

/-- What `getOrCreate` would see for a key before any sweep: the entry if it
is present and live at `now`, and `none` if absent or expired.  This is the
portion of the store state that determines a key's next decision. -/
def effectiveLookup (st : Store) (k : String) (now : Int) : Option Entry :=
  match lookup st k with
  | some e => if e.resetTime < now then none else some e
  | none => none

/-! ### Store lemmas -/

theorem lookup_setEntry_self (st : Store) (k : String) (e : Entry) :
    lookup (setEntry st k e) k = some e := by
  induction st with
  | nil => simp [setEntry, lookup]
  | cons kv rest ih =>
      obtain ⟨k1, e1⟩ := kv
      by_cases h : k1 = k
      · simp [setEntry, lookup, h]
      · simp [setEntry, lookup, h, ih]

theorem lookup_setEntry_ne (st : Store) (k k2 : String) (e : Entry) (hne : k ≠ k2) :
    lookup (setEntry st k e) k2 = lookup st k2 := by
  induction st with
  | nil => simp [setEntry, lookup, hne]
  | cons kv rest ih =>
      obtain ⟨k1, e1⟩ := kv
      by_cases h : k1 = k
      · subst h
        simp [setEntry, lookup, hne]
      · simp only [setEntry, if_neg h]
        by_cases h2 : k1 = k2
        · simp [lookup, h2]
        · simp [lookup, h2, ih]

theorem lookup_eq_none_of_not_mem (st : Store) (k : String) :
    k ∉ st.map Prod.fst → lookup st k = none := by
  induction st with
  | nil => intro _; rfl
  | cons kv rest ih =>
      intro h
      obtain ⟨k1, e1⟩ := kv
      simp only [List.map_cons, List.mem_cons, not_or] at h
      simp [lookup, Ne.symm h.1, ih h.2]

theorem lookup_sweep_none (st : Store) (k : String) (now : Int) :
    lookup st k = none → lookup (sweep st now) k = none := by
  induction st with
  | nil => intro _; rfl
  | cons kv rest ih =>
      intro h
      obtain ⟨k1, e1⟩ := kv
      by_cases hk : k1 = k
      · simp [lookup, hk] at h
      · simp only [lookup, hk, if_neg hk] at h
        by_cases hkeep : e1.resetTime < now
        · simpa [sweep, hkeep] using ih h
        · simpa [sweep, hkeep, lookup, hk] using ih h

theorem lookup_sweep_live (st : Store) (k : String) (now : Int) (e : Entry) :
    lookup st k = some e → ¬ e.resetTime < now → lookup (sweep st now) k = some e := by
  induction st with
  | nil => intro h _; simp [lookup] at h
  | cons kv rest ih =>
      intro h hl
      obtain ⟨k1, e1⟩ := kv
      by_cases hk : k1 = k
      · have he1 : e1 = e := by simpa [lookup, hk] using h
        subst he1
        simp [sweep, hl, lookup, hk]
      · simp only [lookup, if_neg hk] at h
        by_cases hkeep : e1.resetTime < now
        · simpa [sweep, hkeep] using ih h hl
        · simpa [sweep, hkeep, lookup, hk] using ih h hl

theorem lookup_sweep_expired (st : Store) (k : String) (now : Int) (e : Entry) :
    keysNodup st → lookup st k = some e → e.resetTime < now →
    lookup (sweep st now) k = none := by
  induction st with
  | nil => intro _ h _; simp [lookup] at h
  | cons kv rest ih =>
      intro hn h hexp
      obtain ⟨k1, e1⟩ := kv
      simp only [keysNodup, List.map_cons, List.nodup_cons] at hn
      by_cases hk : k1 = k
      · have he1 : e1 = e := by simpa [lookup, hk] using h
        subst he1
        have hnone : lookup rest k = none := by
          apply lookup_eq_none_of_not_mem
          rw [← hk]
          exact hn.1
        simp [sweep, hexp, lookup_sweep_none rest k now hnone]
      · simp only [lookup, if_neg hk] at h
        have := ih hn.2 h hexp
        by_cases hkeep : e1.resetTime < now
        · simpa [sweep, hkeep] using this
        · simpa [sweep, hkeep, lookup, hk] using this

theorem lookup_sweep_not_lt (st : Store) (now : Int) (k : String) (e : Entry) :
    lookup (sweep st now) k = some e → ¬ e.resetTime < now := by
  induction st with
  | nil => intro h; simp [sweep, lookup] at h
  | cons kv rest ih =>
      intro h
      obtain ⟨k1, e1⟩ := kv
      by_cases hkeep : e1.resetTime < now
      · simp only [sweep, if_pos hkeep] at h
        exact ih h
      · by_cases hk : k1 = k
        · have : e1 = e := by simpa [sweep, hkeep, lookup, hk] using h
          subst this
          exact hkeep
        · simp only [sweep, if_neg hkeep, lookup, if_neg hk] at h
          exact ih h

theorem sweep_sublist (st : Store) (now : Int) : List.Sublist (sweep st now) st := by
  induction st with
  | nil => simp [sweep]
  | cons kv rest ih =>
      by_cases h : kv.2.resetTime < now
      · simpa [sweep, h] using List.Sublist.cons kv ih
      · simpa [sweep, h] using List.Sublist.cons₂ kv ih

theorem keysNodup_sweep (st : Store) (now : Int) (hn : keysNodup st) :
    keysNodup (sweep st now) :=
  List.Nodup.sublist (List.Sublist.map Prod.fst (sweep_sublist st now)) hn

theorem mem_keys_setEntry (st : Store) (k a : String) (e : Entry) :
    a ∈ (setEntry st k e).map Prod.fst → a = k ∨ a ∈ st.map Prod.fst := by
  induction st with
  | nil =>
      intro h
      simp [setEntry] at h
      exact Or.inl h
  | cons kv rest ih =>
      intro h
      obtain ⟨k1, e1⟩ := kv
      by_cases hk : k1 = k
      · simp only [setEntry, if_pos hk, List.map_cons, List.mem_cons] at h
        rcases h with h | h
        · exact Or.inl h
        · exact Or.inr (by simp [h])
      · simp only [setEntry, if_neg hk, List.map_cons, List.mem_cons] at h
        rcases h with h | h
        · exact Or.inr (by simp [h])
        · rcases ih h with h2 | h2
          · exact Or.inl h2
          · exact Or.inr (by simp [h2])

theorem keysNodup_setEntry (st : Store) (k : String) (e : Entry) :
    keysNodup st → keysNodup (setEntry st k e) := by
  induction st with
  | nil => intro _; simp [setEntry, keysNodup]
  | cons kv rest ih =>
      intro hn
      obtain ⟨k1, e1⟩ := kv
      simp only [keysNodup, List.map_cons, List.nodup_cons] at hn
      by_cases hk : k1 = k
      · subst hk
        simp only [setEntry, if_pos rfl, keysNodup, List.map_cons, List.nodup_cons,
          ite_true, eq_self_iff_true]
        exact hn
      · simp only [setEntry, if_neg hk, keysNodup, List.map_cons, List.nodup_cons]
        refine ⟨fun hmem => ?_, ih hn.2⟩
        rcases mem_keys_setEntry rest k k1 e hmem with h | h
        · exact hk h
        · exact hn.1 h

theorem lookup_mem (st : Store) (k : String) (e : Entry) :
    lookup st k = some e → (k, e) ∈ st := by
  induction st with
  | nil => intro h; simp [lookup] at h
  | cons kv rest ih =>
      intro h
      obtain ⟨k1, e1⟩ := kv
      by_cases hk : k1 = k
      · have : e1 = e := by simpa [lookup, hk] using h
        subst this
        subst hk
        exact List.mem_cons_self _ _
      · simp only [lookup, if_neg hk] at h
        exact List.mem_cons_of_mem _ (ih h)

/-! ### Lemmas about one invocation -/

theorem bumped_of_live (st : Store) (k : String) (now w : Int) (e : Entry)
    (h : lookup st k = some e) (hl : ¬ e.resetTime < now) :
    bumped (sweep st now) k now w = Entry.mk (e.count + 1) e.resetTime := by
  simp [bumped, getOrCreate, lookup_sweep_live st k now e h hl, hl]

theorem bumped_of_none (st : Store) (k : String) (now w : Int)
    (h : lookup st k = none) :
    bumped (sweep st now) k now w = Entry.mk 1 (now + w) := by
  simp [bumped, getOrCreate, lookup_sweep_none st k now h]

theorem bumped_of_expired (st : Store) (k : String) (now w : Int) (e : Entry)
    (hn : keysNodup st) (h : lookup st k = some e) (hexp : e.resetTime < now) :
    bumped (sweep st now) k now w = Entry.mk 1 (now + w) := by
  simp [bumped, getOrCreate, lookup_sweep_expired st k now e hn h hexp]

theorem getOrCreate_sweep (st : Store) (k : String) (now w : Int) (hn : keysNodup st) :
    getOrCreate (sweep st now) k now w =
      (match effectiveLookup st k now with
       | some e => e
       | none => Entry.mk 0 (now + w)) := by
  cases hlk : lookup st k with
  | none => simp [effectiveLookup, hlk, getOrCreate, lookup_sweep_none st k now hlk]
  | some e =>
      by_cases hexp : e.resetTime < now
      · simp [effectiveLookup, hlk, hexp, getOrCreate,
          lookup_sweep_expired st k now e hn hlk hexp]
      · simp [effectiveLookup, hlk, hexp, getOrCreate,
          lookup_sweep_live st k now e hlk hexp]

theorem check_fst_congr (cfg : ResolvedConfig) (k : String) (now : Int) (st st2 : Store)
    (hn : keysNodup st) (hn2 : keysNodup st2)
    (he : effectiveLookup st k now = effectiveLookup st2 k now) :
    (rateLimitCheck cfg k now st).1 = (rateLimitCheck cfg k now st2).1 := by
  simp only [rateLimitCheck, bumped, getOrCreate_sweep st k now cfg.windowMs hn,
    getOrCreate_sweep st2 k now cfg.windowMs hn2, he]

theorem keysNodup_check (cfg : ResolvedConfig) (k : String) (now : Int) (st : Store)
    (hn : keysNodup st) : keysNodup (rateLimitCheck cfg k now st).2 :=
  keysNodup_setEntry _ _ _ (keysNodup_sweep st now hn)

theorem lookup_check_self (cfg : ResolvedConfig) (k : String) (now : Int) (st : Store) :
    lookup (rateLimitCheck cfg k now st).2 k
      = some (bumped (sweep st now) k now cfg.windowMs) :=
  lookup_setEntry_self _ _ _

theorem lookup_check_ne (cfg : ResolvedConfig) (k k2 : String) (now : Int) (st : Store)
    (hne : k ≠ k2) :
    lookup (rateLimitCheck cfg k now st).2 k2 = lookup (sweep st now) k2 :=
  lookup_setEntry_ne _ _ _ _ hne

theorem bumped_resetTime_ge (st : Store) (k : String) (now w : Int) (hw : 0 ≤ w) :
    now ≤ (bumped (sweep st now) k now w).resetTime := by
  cases hlk : lookup (sweep st now) k with
  | none =>
      simp only [bumped, getOrCreate, hlk]
      omega
  | some e =>
      have hlive := lookup_sweep_not_lt st now k e hlk
      simp only [bumped, getOrCreate, hlk, if_neg hlive]
      omega

theorem ceilSeconds_nonneg (d : Int) (hd : 0 ≤ d) : 0 ≤ ceilSeconds d := by
  simp only [ceilSeconds]
  omega

theorem effectiveLookup_after (cfg : ResolvedConfig) (k1 k2 : String) (t t2 : Int)
    (st : Store) (hn : keysNodup st) (hne : k1 ≠ k2) (hle : t ≤ t2) :
    effectiveLookup (rateLimitCheck cfg k1 t st).2 k2 t2 = effectiveLookup st k2 t2 := by
  have hset := lookup_check_ne cfg k1 k2 t st hne
  cases hlk : lookup st k2 with
  | none => simp [effectiveLookup, hset, lookup_sweep_none st k2 t hlk, hlk]
  | some e =>
      by_cases hexp : e.resetTime < t
      · have ht2 : e.resetTime < t2 := lt_of_lt_of_le hexp hle
        simp [effectiveLookup, hset, lookup_sweep_expired st k2 t e hn hlk hexp, hlk, ht2]
      · simp [effectiveLookup, hset, lookup_sweep_live st k2 t e hlk hexp, hlk]

theorem check_limitHdr (cfg : ResolvedConfig) (k : String) (now : Int) (st : Store) :
    (rateLimitCheck cfg k now st).1.limitHdr = cfg.max := rfl

theorem check_remainingHdr (cfg : ResolvedConfig) (k : String) (now : Int) (st : Store) :
    (rateLimitCheck cfg k now st).1.remainingHdr
      = max 0 (cfg.max - (bumped (sweep st now) k now cfg.windowMs).count) := rfl

theorem check_resetHdr (cfg : ResolvedConfig) (k : String) (now : Int) (st : Store) :
    (rateLimitCheck cfg k now st).1.resetHdr
      = (bumped (sweep st now) k now cfg.windowMs).resetTime := rfl

theorem bumped_live_count (st : Store) (k : String) (now w : Int) (e : Entry)
    (h : lookup st k = some e) (hl : ¬ e.resetTime < now) :
    (bumped (sweep st now) k now w).count = e.count + 1 := by
  rw [bumped_of_live st k now w e h hl]

theorem bumped_live_resetTime (st : Store) (k : String) (now w : Int) (e : Entry)
    (h : lookup st k = some e) (hl : ¬ e.resetTime < now) :
    (bumped (sweep st now) k now w).resetTime = e.resetTime := by
  rw [bumped_of_live st k now w e h hl]

theorem runTimes_length (cfg : ResolvedConfig) (k : String) (ts : List Int) (st : Store) :
    (runTimes cfg k ts st).1.length = ts.length := by
  induction ts generalizing st with
  | nil => rfl
  | cons t rest ih => simp [runTimes, ih]

theorem runTimes_rejected_aux (cfg : ResolvedConfig) (k : String) :
    ∀ (ts : List Int) (st : Store) (c r : Int),
      lookup st k = some (Entry.mk c r) → (∀ t ∈ ts, ¬ r < t) →
      ∀ (i : Nat) (o : Outcome), (runTimes cfg k ts st).1[i]? = some o →
        (o.rejected = none ↔ c + ((i : Int) + 1) ≤ cfg.max) := by
  intro ts
  induction ts with
  | nil =>
      intro st c r _ _ i o ho
      simp [runTimes] at ho
  | cons t rest ih =>
      intro st c r h ht i o ho
      have hl : ¬ r < t := ht t (List.mem_cons_self t rest)
      have hb : bumped (sweep st t) k t cfg.windowMs = Entry.mk (c + 1) r := by
        simpa using bumped_of_live st k t cfg.windowMs (Entry.mk c r) h hl
      have hrun : (runTimes cfg k (t :: rest) st).1
          = (rateLimitCheck cfg k t st).1
            :: (runTimes cfg k rest (rateLimitCheck cfg k t st).2).1 := by
        simp [runTimes]
      rw [hrun] at ho
      cases i with
      | zero =>
          simp only [List.getElem?_cons_zero, Option.some.injEq] at ho
          subst ho
          simp only [rateLimitCheck, decisionOf, hb]
          by_cases hc : cfg.max < c + 1
          · simp [hc]
          · simp [hc]
            omega
      | succ j =>
          simp only [List.getElem?_cons_succ] at ho
          have hlook2 : lookup (rateLimitCheck cfg k t st).2 k
              = some (Entry.mk (c + 1) r) := by
            rw [lookup_check_self, hb]
          have ht2 : ∀ t2 ∈ rest, ¬ r < t2 :=
            fun t2 h2 => ht t2 (List.mem_cons_of_mem _ h2)
          have hiff := ih (rateLimitCheck cfg k t st).2 (c + 1) r hlook2 ht2 j o ho
          rw [hiff]
          push_cast
          omega

/-- C4: window ceiling.  Starting from a store with no entry for key `k`,
a sequence of calls at time `t0` and then at times within the window
(`t ≤ t0 + windowMs`) is admitted exactly on the first `maxRequests` calls:
the `i`-th call (0-indexed) falls through to `next` iff `i + 1 ≤ maxRequests`,
so the first `M` calls are all admitted and the `(M+1)`-th is the first
rejection. -/
theorem C4_window_ceiling (cfg : ResolvedConfig) (k : String) (t0 : Int)
    (rest : List Int) (st : Store) (i : Nat) (o : Outcome)
    (h0 : lookup st k = none)
    (hw : ∀ t ∈ rest, t ≤ t0 + cfg.windowMs)
    (ho : (runTimes cfg k (t0 :: rest) st).1[i]? = some o) :
    o.rejected = none ↔ (i : Int) + 1 ≤ cfg.max := by
  have hb : bumped (sweep st t0) k t0 cfg.windowMs = Entry.mk 1 (t0 + cfg.windowMs) :=
    bumped_of_none st k t0 cfg.windowMs h0
  have hrun : (runTimes cfg k (t0 :: rest) st).1
      = (rateLimitCheck cfg k t0 st).1
        :: (runTimes cfg k rest (rateLimitCheck cfg k t0 st).2).1 := by
    simp [runTimes]
  rw [hrun] at ho
  cases i with
  | zero =>
      simp only [List.getElem?_cons_zero, Option.some.injEq] at ho
      subst ho
      simp only [rateLimitCheck, decisionOf, hb]
      by_cases hc : cfg.max < 1
      · simp [hc]
      · simp [hc]
        omega
  | succ j =>
      simp only [List.getElem?_cons_succ] at ho
      have hlook2 : lookup (rateLimitCheck cfg k t0 st).2 k
          = some (Entry.mk 1 (t0 + cfg.windowMs)) := by
        rw [lookup_check_self, hb]
      have ht2 : ∀ t ∈ rest, ¬ t0 + cfg.windowMs < t := by
        intro t h2
        have := hw t h2
        omega
      have hiff := runTimes_rejected_aux cfg k rest (rateLimitCheck cfg k t0 st).2 1
        (t0 + cfg.windowMs) hlook2 ht2 j o ho
      rw [hiff]
      push_cast
      omega

/-- Witness for C4: with the strict preset (`maxRequests = 5`), six calls for
key `"A"` at time 0 on the empty store; the sixth call (index 5) is the first
rejection. -/
theorem C4_window_ceiling_witness :
    ((Outcome.mk 5 0 900000 (some (Rejection.mk 900 429
        "Too many requests for this resource"))).rejected = none
      ↔ ((5 : Nat) : Int) + 1 ≤ strictRateLimit.max) :=
  C4_window_ceiling strictRateLimit "A" 0 [0, 0, 0, 0, 0] [] 5
    (Outcome.mk 5 0 900000 (some (Rejection.mk 900 429
      "Too many requests for this resource")))
    rfl (by decide) (by decide)

/-! ### Claim C1: preset state isolation -/

/-- C1 counterexample: the presets are not state-isolated.  After one call
under the strict preset for key `"k"`, a call under the general-API preset
for the same key no longer produces the outcome it produces on an untouched
store: it reads (and increments) the entry the strict call installed in the
shared module-level map. -/
theorem C1_counterexample :
    (rateLimitCheck apiRateLimit "k" 0 (rateLimitCheck strictRateLimit "k" 0 []).2).1
      ≠ (rateLimitCheck apiRateLimit "k" 0 []).1 := by decide

/-- C1 (amended): all limiter presets share the single module-level
`requestCounts` map.  Whatever entry a check under config A leaves for key
`k` (live at `now`), a check under any config B for the same key reads that
same entry, increments its count, and reports `remaining` computed from it. -/
theorem C1_shared_store (cfgA cfgB : ResolvedConfig) (k : String) (now : Int)
    (st : Store) (e : Entry)
    (he : lookup (rateLimitCheck cfgA k now st).2 k = some e)
    (hl : ¬ e.resetTime < now) :
    (rateLimitCheck cfgB k now (rateLimitCheck cfgA k now st).2).1.remainingHdr
        = max 0 (cfgB.max - (e.count + 1))
    ∧ lookup (rateLimitCheck cfgB k now (rateLimitCheck cfgA k now st).2).2 k
        = some (Entry.mk (e.count + 1) e.resetTime) := by
  constructor
  · rw [check_remainingHdr,
      bumped_live_count (rateLimitCheck cfgA k now st).2 k now cfgB.windowMs e he hl]
  · rw [lookup_check_self,
      bumped_of_live (rateLimitCheck cfgA k now st).2 k now cfgB.windowMs e he hl]

/-- Witness for C1: a strict-preset call for `"k"` leaves entry (1, 900000);
an api-preset call at the same instant continues that same entry. -/
theorem C1_shared_store_witness :
    (rateLimitCheck apiRateLimit "k" 0
        (rateLimitCheck strictRateLimit "k" 0 []).2).1.remainingHdr
        = max 0 (apiRateLimit.max - ((Entry.mk 1 900000).count + 1))
    ∧ lookup (rateLimitCheck apiRateLimit "k" 0
        (rateLimitCheck strictRateLimit "k" 0 []).2).2 "k"
        = some (Entry.mk ((Entry.mk 1 900000).count + 1) (Entry.mk 1 900000).resetTime) :=
  C1_shared_store strictRateLimit apiRateLimit "k" 0 [] (Entry.mk 1 900000)
    (by decide) (by decide)

/-! ### Claim C2: behavior at the exact reset instant -/

/-- C2 counterexample: a request at exactly `now = resetAt` is not treated as
the first request of a new window.  With a stored entry (3, 100) and a call
at time 100, the outcome differs from the fresh-window outcome (the outcome
on a store without the entry): the code keeps and increments the old entry. -/
theorem C2_counterexample :
    (rateLimitCheck apiRateLimit "k" 100 [("k", Entry.mk 3 100)]).1
      ≠ (rateLimitCheck apiRateLimit "k" 100 []).1 := by decide

/-- C2 (amended): the expiry comparison is strict (`resetTime < now`), so a
call arriving at exactly `now = resetAt` is counted in the old window: the
entry is kept with its count incremented, the reset header still reports the
old `resetAt`, and `remaining` continues from the old count.  Replacement
happens only when `now` is strictly past `resetAt`. -/
theorem C2_boundary_old_window (cfg : ResolvedConfig) (k : String) (now : Int)
    (st : Store) (e : Entry)
    (he : lookup st k = some e) (hb : e.resetTime = now) :
    (rateLimitCheck cfg k now st).1.resetHdr = e.resetTime
    ∧ lookup (rateLimitCheck cfg k now st).2 k
        = some (Entry.mk (e.count + 1) e.resetTime)
    ∧ (rateLimitCheck cfg k now st).1.remainingHdr
        = max 0 (cfg.max - (e.count + 1)) := by
  have hl : ¬ e.resetTime < now := by omega
  have hbe := bumped_of_live st k now cfg.windowMs e he hl
  refine ⟨?_, ?_, ?_⟩
  · simp only [rateLimitCheck, decisionOf, hbe]
  · rw [lookup_check_self, hbe]
  · simp only [rateLimitCheck, decisionOf, hbe]

/-- Witness for C2 (amended): entry (3, 100), call at time 100. -/
theorem C2_boundary_old_window_witness :
    (rateLimitCheck apiRateLimit "k" 100 [("k", Entry.mk 3 100)]).1.resetHdr
        = (Entry.mk 3 100).resetTime
    ∧ lookup (rateLimitCheck apiRateLimit "k" 100 [("k", Entry.mk 3 100)]).2 "k"
        = some (Entry.mk ((Entry.mk 3 100).count + 1) (Entry.mk 3 100).resetTime)
    ∧ (rateLimitCheck apiRateLimit "k" 100 [("k", Entry.mk 3 100)]).1.remainingHdr
        = max 0 (apiRateLimit.max - ((Entry.mk 3 100).count + 1)) :=
  C2_boundary_old_window apiRateLimit "k" 100 [("k", Entry.mk 3 100)] (Entry.mk 3 100)
    (by decide) (by decide)

/-! ### Claim C3: construction-time validation -/

/-- C3 counterexample: constructing a limiter with `windowMs = 0` and
`max = 0` does not fail: `rateLimit` is a total function with no validation,
the invalid values are kept verbatim, and the resulting limiter processes
requests (here: it produces a 429 decision). -/
theorem C3_counterexample :
    (rateLimit (RateLimitOptions.mk (some 0) (some 0) none)).windowMs = 0
    ∧ (rateLimit (RateLimitOptions.mk (some 0) (some 0) none)).max = 0
    ∧ (rateLimitCheck (rateLimit (RateLimitOptions.mk (some 0) (some 0) none))
        "k" 7 []).1.rejected.isSome = true := by decide

/-- C3 (amended): construction never fails and performs no validation:
explicit option values are adopted verbatim even when non-positive, and the
resulting limiter operates; in particular with `maxRequests ≤ 0` every
request is rejected (on any store whose counts are non-negative). -/
theorem C3_no_validation (w m : Int) (msg : Option String) (k : String) (now : Int)
    (st : Store) (hm : m ≤ 0)
    (hc : ∀ kv ∈ st, 0 ≤ (kv : String × Entry).2.count) :
    (rateLimit (RateLimitOptions.mk (some w) (some m) msg)).windowMs = w
    ∧ (rateLimit (RateLimitOptions.mk (some w) (some m) msg)).max = m
    ∧ (rateLimitCheck (rateLimit (RateLimitOptions.mk (some w) (some m) msg))
        k now st).1.rejected.isSome = true := by
  refine ⟨rfl, rfl, ?_⟩
  have hcount : 1 ≤ (bumped (sweep st now) k now
      (rateLimit (RateLimitOptions.mk (some w) (some m) msg)).windowMs).count := by
    cases hlk : lookup (sweep st now) k with
    | none => simp [bumped, getOrCreate, hlk]
    | some e =>
        have hmem : (k, e) ∈ st := (sweep_sublist st now).subset (lookup_mem _ _ _ hlk)
        have := hc (k, e) hmem
        by_cases hexp : e.resetTime < now
        · simp [bumped, getOrCreate, hlk, hexp]
        · have h0 : 0 ≤ e.count := this
          simp only [bumped, getOrCreate, hlk, if_neg hexp]
          omega
  have hmax : (rateLimit (RateLimitOptions.mk (some w) (some m) msg)).max = m := rfl
  simp only [rateLimitCheck, decisionOf]
  rw [if_pos (by omega)]
  rfl

/-- Witness for C3 (amended): `windowMs = -5`, `max = 0` build a limiter
that rejects the first request. -/
theorem C3_no_validation_witness :
    (rateLimit (RateLimitOptions.mk (some (-5)) (some 0) none)).windowMs = -5
    ∧ (rateLimit (RateLimitOptions.mk (some (-5)) (some 0) none)).max = 0
    ∧ (rateLimitCheck (rateLimit (RateLimitOptions.mk (some (-5)) (some 0) none))
        "k" 3 []).1.rejected.isSome = true :=
  C3_no_validation (-5) 0 none "k" 3 [] (by decide) (by decide)

/-! ### Claim C5: remaining computation and monotonicity -/

/-- C5: the reported `remaining` equals `max(0, maxRequests - count)` where
`count` is the post-increment counter stored for the key; it is 0 exactly
when `count` has reached `maxRequests`; and across a second call within the
same window it is non-increasing. -/
theorem C5_remaining (cfg : ResolvedConfig) (k : String) (now now2 : Int) (st : Store)
    (hl2 : ¬ (bumped (sweep st now) k now cfg.windowMs).resetTime < now2) :
    (rateLimitCheck cfg k now st).1.remainingHdr
        = max 0 (cfg.max - (bumped (sweep st now) k now cfg.windowMs).count)
    ∧ lookup (rateLimitCheck cfg k now st).2 k
        = some (bumped (sweep st now) k now cfg.windowMs)
    ∧ ((rateLimitCheck cfg k now st).1.remainingHdr = 0
        ↔ cfg.max ≤ (bumped (sweep st now) k now cfg.windowMs).count)
    ∧ (rateLimitCheck cfg k now2 (rateLimitCheck cfg k now st).2).1.remainingHdr
        ≤ (rateLimitCheck cfg k now st).1.remainingHdr := by
  refine ⟨rfl, lookup_check_self cfg k now st, ?_, ?_⟩
  · simp only [rateLimitCheck, decisionOf]
    omega
  · rw [check_remainingHdr, check_remainingHdr,
      bumped_live_count (rateLimitCheck cfg k now st).2 k now2 cfg.windowMs
        (bumped (sweep st now) k now cfg.windowMs) (lookup_check_self cfg k now st) hl2]
    omega

/-- Witness for C5: api preset, key `"A"`, first call at 0, second at 10. -/
theorem C5_remaining_witness :
    (rateLimitCheck apiRateLimit "A" 0 []).1.remainingHdr
        = max 0 (apiRateLimit.max - (bumped (sweep [] 0) "A" 0 apiRateLimit.windowMs).count)
    ∧ lookup (rateLimitCheck apiRateLimit "A" 0 []).2 "A"
        = some (bumped (sweep [] 0) "A" 0 apiRateLimit.windowMs)
    ∧ ((rateLimitCheck apiRateLimit "A" 0 []).1.remainingHdr = 0
        ↔ apiRateLimit.max ≤ (bumped (sweep [] 0) "A" 0 apiRateLimit.windowMs).count)
    ∧ (rateLimitCheck apiRateLimit "A" 10 (rateLimitCheck apiRateLimit "A" 0 []).2).1.remainingHdr
        ≤ (rateLimitCheck apiRateLimit "A" 0 []).1.remainingHdr :=
  C5_remaining apiRateLimit "A" 0 10 [] (by decide)

/-! ### Claim C6: rejection contract -/

/-- C6: whenever a check rejects, the rejection has status 429, body
`{error: message}`, a `Retry-After` equal to `ceil((resetAt - now)/1000)`
which is never negative (for a non-negative window length), and the request
is not forwarded to the next stage. -/
theorem C6_rejection_contract (cfg : ResolvedConfig) (k : String) (now : Int)
    (st : Store) (rej : Rejection) (hw : 0 ≤ cfg.windowMs)
    (hr : (rateLimitCheck cfg k now st).1.rejected = some rej) :
    rej.status = 429
    ∧ rej.errorBody = cfg.message
    ∧ rej.retryAfter = ceilSeconds ((rateLimitCheck cfg k now st).1.resetHdr - now)
    ∧ 0 ≤ rej.retryAfter
    ∧ nextInvoked (rateLimitCheck cfg k now st).1 = false := by
  have hge := bumped_resetTime_ge st k now cfg.windowMs hw
  simp only [rateLimitCheck, decisionOf] at hr ⊢
  by_cases hc : cfg.max < (bumped (sweep st now) k now cfg.windowMs).count
  · rw [if_pos hc] at hr
    obtain rfl := Option.some.inj hr
    refine ⟨rfl, rfl, rfl, ?_, ?_⟩
    · exact ceilSeconds_nonneg _ (by omega)
    · simp [nextInvoked, hc]
  · rw [if_neg hc] at hr
    cases hr

/-- Witness for C6: a limiter with `max = 0` rejects the first call with
`Retry-After` 1 (window 1000 ms). -/
theorem C6_rejection_contract_witness :
    (Rejection.mk 1 429 defaultMessage).status = 429
    ∧ (Rejection.mk 1 429 defaultMessage).errorBody
        = (rateLimit (RateLimitOptions.mk (some 1000) (some 0) none)).message
    ∧ (Rejection.mk 1 429 defaultMessage).retryAfter
        = ceilSeconds ((rateLimitCheck (rateLimit (RateLimitOptions.mk (some 1000)
            (some 0) none)) "k" 0 []).1.resetHdr - 0)
    ∧ 0 ≤ (Rejection.mk 1 429 defaultMessage).retryAfter
    ∧ nextInvoked (rateLimitCheck (rateLimit (RateLimitOptions.mk (some 1000)
        (some 0) none)) "k" 0 []).1 = false :=
  C6_rejection_contract (rateLimit (RateLimitOptions.mk (some 1000) (some 0) none))
    "k" 0 [] (Rejection.mk 1 429 defaultMessage) (by decide) (by decide)

/-! ### Claim C7: informational headers -/

/-- C7: every outcome carries the three informational headers as fields; the
limit header always equals `maxRequests` (also on a follow-up call), and the
reset header is the absolute `resetAt` timestamp, unchanged by a second call
within the same window. -/
theorem C7_headers (cfg : ResolvedConfig) (k : String) (now now2 : Int) (st : Store)
    (hl2 : ¬ (rateLimitCheck cfg k now st).1.resetHdr < now2) :
    (rateLimitCheck cfg k now st).1.limitHdr = cfg.max
    ∧ (rateLimitCheck cfg k now2 (rateLimitCheck cfg k now st).2).1.limitHdr = cfg.max
    ∧ (rateLimitCheck cfg k now2 (rateLimitCheck cfg k now st).2).1.resetHdr
        = (rateLimitCheck cfg k now st).1.resetHdr := by
  have hl2b : ¬ (bumped (sweep st now) k now cfg.windowMs).resetTime < now2 := hl2
  refine ⟨rfl, rfl, ?_⟩
  rw [check_resetHdr, check_resetHdr,
    bumped_live_resetTime (rateLimitCheck cfg k now st).2 k now2 cfg.windowMs
      (bumped (sweep st now) k now cfg.windowMs) (lookup_check_self cfg k now st) hl2b]

/-- Witness for C7: api preset, calls at 0 and 59999 (still inside the
window ending at 60000). -/
theorem C7_headers_witness :
    (rateLimitCheck apiRateLimit "A" 0 []).1.limitHdr = apiRateLimit.max
    ∧ (rateLimitCheck apiRateLimit "A" 59999
        (rateLimitCheck apiRateLimit "A" 0 []).2).1.limitHdr = apiRateLimit.max
    ∧ (rateLimitCheck apiRateLimit "A" 59999
        (rateLimitCheck apiRateLimit "A" 0 []).2).1.resetHdr
        = (rateLimitCheck apiRateLimit "A" 0 []).1.resetHdr :=
  C7_headers apiRateLimit "A" 0 59999 [] (by decide)

/-! ### Claim C8: reset behavior -/

/-- C8: if the stored entry for a key has expired (`resetAt < now`), the next
call is admitted and reports `remaining = maxRequests - 1`: a fresh window
starts with count 1 and `resetAt = now + windowMs`. -/
theorem C8_reset (cfg : ResolvedConfig) (k : String) (now : Int) (st : Store) (e : Entry)
    (hn : keysNodup st) (he : lookup st k = some e) (hexp : e.resetTime < now)
    (hm : 1 ≤ cfg.max) :
    (rateLimitCheck cfg k now st).1.rejected = none
    ∧ (rateLimitCheck cfg k now st).1.remainingHdr = cfg.max - 1
    ∧ lookup (rateLimitCheck cfg k now st).2 k
        = some (Entry.mk 1 (now + cfg.windowMs)) := by
  have hb := bumped_of_expired st k now cfg.windowMs e hn he hexp
  have h1 : ¬ cfg.max < (1 : Int) := by omega
  refine ⟨?_, ?_, ?_⟩
  · simp [rateLimitCheck, decisionOf, hb, h1]
  · simp [rateLimitCheck, decisionOf, hb]
    omega
  · rw [lookup_check_self, hb]

/-- Witness for C8: api preset, entry (7, 50) expired at time 100. -/
theorem C8_reset_witness :
    (rateLimitCheck apiRateLimit "A" 100 [("A", Entry.mk 7 50)]).1.rejected = none
    ∧ (rateLimitCheck apiRateLimit "A" 100 [("A", Entry.mk 7 50)]).1.remainingHdr
        = apiRateLimit.max - 1
    ∧ lookup (rateLimitCheck apiRateLimit "A" 100 [("A", Entry.mk 7 50)]).2 "A"
        = some (Entry.mk 1 (100 + apiRateLimit.windowMs)) :=
  C8_reset apiRateLimit "A" 100 [("A", Entry.mk 7 50)] (Entry.mk 7 50)
    (by decide) (by decide) (by decide) (by decide)

/-! ### Claim C9: key isolation -/

/-- C9: under one config, a check for key `k1` never changes the outcome of a
later check for a different key `k2` (time moves forward), and the only
effect it can have on `k2`'s stored entry is the sweep's removal of an entry
that `getOrCreate` would independently treat as expired: the binding left
for `k2` is exactly its effective (live-or-none) view at the sweep time. -/
theorem C9_key_isolation (cfg : ResolvedConfig) (k1 k2 : String) (t t2 : Int) (st : Store)
    (hn : keysNodup st) (hne : k1 ≠ k2) (hle : t ≤ t2) :
    (rateLimitCheck cfg k2 t2 (rateLimitCheck cfg k1 t st).2).1
        = (rateLimitCheck cfg k2 t2 st).1
    ∧ lookup (rateLimitCheck cfg k1 t st).2 k2 = effectiveLookup st k2 t := by
  constructor
  · exact check_fst_congr cfg k2 t2 _ st (keysNodup_check cfg k1 t st hn) hn
      (effectiveLookup_after cfg k1 k2 t t2 st hn hne hle)
  · rw [lookup_check_ne cfg k1 k2 t st hne]
    cases hlk : lookup st k2 with
    | none => simp [effectiveLookup, hlk, lookup_sweep_none st k2 t hlk]
    | some e =>
        by_cases hexp : e.resetTime < t
        · simp [effectiveLookup, hlk, hexp, lookup_sweep_expired st k2 t e hn hlk hexp]
        · simp [effectiveLookup, hlk, hexp, lookup_sweep_live st k2 t e hlk hexp]

/-- Witness for C9: a call for `"A"` at time 0 does not disturb `"B"`'s live
entry (2, 50) nor the outcome of `"B"`'s check at time 5. -/
theorem C9_key_isolation_witness :
    (rateLimitCheck apiRateLimit "B" 5
        (rateLimitCheck apiRateLimit "A" 0 [("B", Entry.mk 2 50)]).2).1
        = (rateLimitCheck apiRateLimit "B" 5 [("B", Entry.mk 2 50)]).1
    ∧ lookup (rateLimitCheck apiRateLimit "A" 0 [("B", Entry.mk 2 50)]).2 "B"
        = effectiveLookup [("B", Entry.mk 2 50)] "B" 0 :=
  C9_key_isolation apiRateLimit "A" "B" 0 5 [("B", Entry.mk 2 50)]
    (by decide) (by decide) (by decide)

/-! ### Claim C10: store invariant after a check -/

/-- C10: immediately after any check at time `now` (with a non-negative
window length), every entry still in the store has `resetAt ≥ now` — the
sweep removed everything older, and the touched entry is live or fresh — and
in particular the reset timestamp used for `Retry-After` satisfies
`resetAt ≥ now`, which is what makes `Retry-After` non-negative. -/
theorem C10_store_invariant (cfg : ResolvedConfig) (k k2 : String) (now : Int)
    (st : Store) (e : Entry) (hw : 0 ≤ cfg.windowMs)
    (he : lookup (rateLimitCheck cfg k now st).2 k2 = some e) :
    now ≤ e.resetTime ∧ now ≤ (rateLimitCheck cfg k now st).1.resetHdr := by
  have hge := bumped_resetTime_ge st k now cfg.windowMs hw
  constructor
  · by_cases hk : k = k2
    · subst hk
      rw [lookup_check_self] at he
      have hbe : bumped (sweep st now) k now cfg.windowMs = e := Option.some.inj he
      rw [← hbe]
      exact hge
    · rw [lookup_check_ne cfg k k2 now st hk] at he
      have := lookup_sweep_not_lt st now k2 e he
      omega
  · exact hge

/-- Witness for C10: after a call for `"A"` at time 10 on the empty store,
the stored entry (1, 60010) and the reset header are at or past 10. -/
theorem C10_store_invariant_witness :
    (10 : Int) ≤ (Entry.mk 1 60010).resetTime
    ∧ (10 : Int) ≤ (rateLimitCheck apiRateLimit "A" 10 []).1.resetHdr :=
  C10_store_invariant apiRateLimit "A" "A" 10 [] (Entry.mk 1 60010)
    (by decide) (by decide)

end RateLimiter
